import Mathlib

/-!
Verification development for the baby-shower worker: a shallow embedding of the
funding ledger, the login-attempt limiter, and the chat action-extraction
pipeline, with theorems about the claims of the specification.

Numbers: JavaScript numbers are modelled as rationals (ℚ); machine floating
point is not the subject of any claim here, and every concrete value involved
is small and exactly representable.
-/

namespace Babyshower

/-! ## String sanitisation (helper `sanitise` of the worker) -/

/-- Characters at or below 0x1F, or equal to 0x7F, are the control characters
the worker's regex replaces with spaces. -/
def sanitiseChar (c : Char) : Char :=
  if c.toNat ≤ 0x1F ∨ c.toNat = 0x7F then ' ' else c

/-- The JavaScript whitespace set removed by String.prototype.trim. -/
def isJsWhitespace (c : Char) : Bool :=
  decide ((0x9 ≤ c.toNat ∧ c.toNat ≤ 0xD) ∨ c.toNat = 0x20 ∨ c.toNat = 0xA0 ∨
    c.toNat = 0x1680 ∨ (0x2000 ≤ c.toNat ∧ c.toNat ≤ 0x200A) ∨ c.toNat = 0x2028 ∨
    c.toNat = 0x2029 ∨ c.toNat = 0x202F ∨ c.toNat = 0x205F ∨ c.toNat = 0x3000 ∨
    c.toNat = 0xFEFF)

/-- JavaScript trim on a character list. -/
def jsTrim (l : List Char) : List Char :=
  ((l.dropWhile isJsWhitespace).reverse.dropWhile isJsWhitespace).reverse

/-- Embedding of `sanitise(value, maxLen)`: a non-string (absent) value yields
the empty string; otherwise control characters become spaces, the result is
trimmed and capped at `maxLen`. -/
def sanitise (value : Option String) (maxLen : Nat) : String :=
  match value with
  | none => ""
  | some s => String.mk ((jsTrim (s.data.map sanitiseChar)).take maxLen)

def MAX_MESSAGE_LENGTH : Nat := 300
def MAX_NAME_LENGTH : Nat := 100
def MAX_GENERIC_STRING : Nat := 500

/-! ## Data model -/

structure Item where
  id : Nat
  title : String
  description : String
  image_url : String
  product_url : String
  price_total : ℚ
  price_raised : ℚ
  is_funded : ℚ
  created_at : String
deriving DecidableEq

/-- A contribution row.  `item_title` is the joined item title carried by the
contribution queries (absent on bare rows).  Creation timestamps are set by
the store and play no part in any claim, so they are not modelled. -/
structure Contribution where
  id : Nat
  item_id : Nat
  contributor_name : String
  contributor_ip : Option String
  amount : ℚ
  message : String
  item_title : Option String
deriving DecidableEq

/-- The worker's durable state: the two tables plus the id the store will give
the next inserted contribution. -/
structure DB where
  items : List Item
  contributions : List Contribution
  nextContribId : Nat
deriving DecidableEq

/-- An error response: HTTP status and the `error` string of the JSON body. -/
structure ApiError where
  status : Nat
  error : String
deriving DecidableEq

/-- SELECT * FROM items WHERE id=? (first match). -/
def findItem (db : DB) (id : Nat) : Option Item :=
  db.items.find? (fun it => it.id == id)

/-- UPDATE items SET ... WHERE id=? : every row with the given id is rewritten
by `f`. -/
def updateItemsWhere (items : List Item) (id : Nat) (f : Item → Item) : List Item :=
  items.map (fun it => if it.id == id then f it else it)

/-! ## Funding ledger operations -/

/-- Math.min on rationals (ℚ has no NaN). -/
def jsMin (a b : ℚ) : ℚ := if a ≤ b then a else b

/-- SQLite MAX(a, b) on rationals. -/
def jsMax (a b : ℚ) : ℚ := if a ≤ b then b else a

theorem jsMin_eq_min (a b : ℚ) : jsMin a b = min a b := (min_def a b).symm

theorem jsMax_eq_max (a b : ℚ) : jsMax a b = max a b := (max_def a b).symm

structure ContribResult where
  applied_amount : ℚ
  new_raised : ℚ
  is_funded : Bool
deriving DecidableEq

/-- Embedding of `handleCreateContribution` (POST /api/contributions), after
the guest-or-admin guard.  `amount` is the numeric coercion of the body field;
finiteness holds for every rational. -/
def handleCreateContribution (db : DB) (itemId : Nat) (contributorName : Option String)
    (amount : ℚ) (message : Option String) (ip : String) :
    Except ApiError ContribResult × DB :=
  if itemId == 0 then (.error ⟨400, "item_id is required"⟩, db)
  else
    let name := sanitise contributorName MAX_NAME_LENGTH
    if name = "" then (.error ⟨400, "contributor_name is required"⟩, db)
    else if amount ≤ 0 then (.error ⟨400, "amount must be > 0"⟩, db)
    else
      match findItem db itemId with
      | none => (.error ⟨404, "Item not found"⟩, db)
      | some item =>
        if item.is_funded = 1 then
          (.error ⟨409, "This item is already fully funded"⟩, db)
        else
          let remaining := item.price_total - item.price_raised
          let appliedAmount := jsMin amount remaining
          let newRaised := item.price_raised + appliedAmount
          let isFunded : ℚ := if newRaised ≥ item.price_total then 1 else 0
          let contribution : Contribution :=
            ⟨db.nextContribId, itemId, name, some ip, appliedAmount,
             sanitise message MAX_MESSAGE_LENGTH, none⟩
          (.ok ⟨appliedAmount, newRaised, decide (isFunded = 1)⟩,
           { items := updateItemsWhere db.items itemId
               (fun it => { it with price_raised := newRaised, is_funded := isFunded }),
             contributions := db.contributions ++ [contribution],
             nextContribId := db.nextContribId + 1 })

/-- Embedding of `handleDeleteMyContribution` (DELETE /api/my-contributions/:id),
after the guest-or-admin guard.  The lookup matches id and contributor_ip; the
delete statement itself matches the id only, and the item update is relative
with a floor at zero and an unconditional is_funded reset. -/
def handleDeleteMyContribution (db : DB) (id : Nat) (ip : String) :
    Except ApiError Unit × DB :=
  match db.contributions.find? (fun c => c.id == id && c.contributor_ip == some ip) with
  | none => (.error ⟨404, "Não encontrado"⟩, db)
  | some contribution =>
    (.ok (),
     { db with
       contributions := db.contributions.filter (fun c => c.id != id),
       items := updateItemsWhere db.items contribution.item_id
         (fun it => { it with price_raised := jsMax 0 (it.price_raised - contribution.amount),
                              is_funded := 0 }) })

/-- Embedding of `handleAdminDeleteContribution` (DELETE /api/contributions/:id),
after the admin guard: identical to the owner route but without the
contributor_ip condition on the lookup. -/
def handleAdminDeleteContribution (db : DB) (id : Nat) :
    Except ApiError Unit × DB :=
  match db.contributions.find? (fun c => c.id == id) with
  | none => (.error ⟨404, "Not found"⟩, db)
  | some contribution =>
    (.ok (),
     { db with
       contributions := db.contributions.filter (fun c => c.id != id),
       items := updateItemsWhere db.items contribution.item_id
         (fun it => { it with price_raised := jsMax 0 (it.price_raised - contribution.amount),
                              is_funded := 0 }) })

/-! ## Item update -/

structure ItemPatch where
  title : Option String
  description : Option String
  image_url : Option String
  product_url : Option String
  price_total : Option ℚ
  is_funded : Option ℚ
deriving DecidableEq

/-- JavaScript `a || b` on strings: the empty string falls back to `b`. -/
def orElseStr (a b : String) : String := if a = "" then b else a

/-- Embedding of `handleUpdateItem` (PUT /api/items/:id), after the admin guard.
The UPDATE statement sets exactly title, description, image_url, product_url,
price_total and is_funded; price_raised and created_at are not mentioned. -/
def handleUpdateItem (db : DB) (id : Nat) (patch : ItemPatch) :
    Except ApiError Unit × DB :=
  let title := sanitise patch.title MAX_GENERIC_STRING
  if title = "" then (.error ⟨400, "title is required"⟩, db)
  else
    match findItem db id with
    | none => (.error ⟨404, "Item not found"⟩, db)
    | some existing =>
      (.ok (),
       { db with items := updateItemsWhere db.items id (fun it =>
           { it with
             title := title,
             description := orElseStr (sanitise patch.description MAX_GENERIC_STRING)
               existing.description,
             image_url := orElseStr (sanitise patch.image_url MAX_GENERIC_STRING)
               existing.image_url,
             product_url := orElseStr (sanitise patch.product_url MAX_GENERIC_STRING)
               existing.product_url,
             price_total := patch.price_total.getD existing.price_total,
             is_funded := patch.is_funded.getD existing.is_funded }) })

/-! ## Login-attempt limiter (auth endpoints) -/

/-- Rate-limit rows are keyed by (identity, UTC day). -/
abbrev RLKey := String × String

abbrev RLStore := List (RLKey × Nat)

/-- SELECT count FROM chat_rate_limit WHERE ip=? AND day=? -/
def rlGet (st : RLStore) (k : RLKey) : Option Nat :=
  (st.find? (fun e => e.1 == k)).map (·.2)

/-- DELETE FROM chat_rate_limit WHERE ip=? AND day=? -/
def rlDelete (st : RLStore) (k : RLKey) : RLStore :=
  st.filter (fun e => e.1 != k)

/-- INSERT ... VALUES (?, ?, 1) ON CONFLICT(ip, day) DO UPDATE SET count = count + 1 -/
def rlIncr (st : RLStore) (k : RLKey) : RLStore :=
  if (rlGet st k).isSome then st.map (fun e => if e.1 == k then (e.1, e.2 + 1) else e)
  else st ++ [(k, 1)]

inductive AuthRes where
  | success
  | unauthorized
  | rateLimited
deriving DecidableEq

/-- Embedding of `handleAdminAuth` (POST /api/admin/auth). -/
def handleAdminAuth (st : RLStore) (ip day : String) (password : Option String)
    (adminPassword : String) : AuthRes × RLStore :=
  let key : RLKey := ("admin:" ++ ip, day)
  let attempts := (rlGet st key).getD 0
  if attempts ≥ 10 then (.rateLimited, st)
  else if password = some adminPassword then (.success, rlDelete st key)
  else (.unauthorized, rlIncr st key)

/-- Embedding of `handleGuestAuth` (POST /api/guest/auth). -/
def handleGuestAuth (st : RLStore) (ip day : String) (password : Option String)
    (guestPassword : String) : AuthRes × RLStore :=
  let key : RLKey := ("guest:" ++ ip, day)
  let attempts := (rlGet st key).getD 0
  if attempts ≥ 10 then (.rateLimited, st)
  else if password = some guestPassword then (.success, rlDelete st key)
  else (.unauthorized, rlIncr st key)

/-! ## JSON values and a JSON.parse embedding

The extractor's output is scanned with the lazy regex for a brace-delimited
substring and fed to JSON.parse inside a try/catch.  Both are modelled
executably below. -/

def lbrace : Char := Char.ofNat 0x7B
def rbrace : Char := Char.ofNat 0x7D

inductive Json where
  | null
  | bool (b : Bool)
  | num (q : ℚ)
  | str (s : String)
  | arr (elems : List Json)
  | obj (fields : List (String × Json))

def isJsonWs (c : Char) : Bool :=
  c == ' ' || c == '\t' || c == '\n' || c == '\r'

def skipWs : List Char → List Char
  | [] => []
  | c :: rest => if isJsonWs c then skipWs rest else c :: rest

def hexVal (c : Char) : Option Nat :=
  if '0' ≤ c ∧ c ≤ '9' then some (c.toNat - '0'.toNat)
  else if 'a' ≤ c ∧ c ≤ 'f' then some (c.toNat - 'a'.toNat + 10)
  else if 'A' ≤ c ∧ c ≤ 'F' then some (c.toNat - 'A'.toNat + 10)
  else none

def escChar (e : Char) : Option Char :=
  if e = '"' then some '"'
  else if e = '\\' then some '\\'
  else if e = '/' then some '/'
  else if e = 'b' then some (Char.ofNat 8)
  else if e = 'f' then some (Char.ofNat 12)
  else if e = 'n' then some '\n'
  else if e = 'r' then some '\r'
  else if e = 't' then some '\t'
  else none

/-- Parse the body of a JSON string after the opening quote, returning the
content and the remainder after the closing quote. -/
def parseStringBody : List Char → Option (List Char × List Char)
  | [] => none
  | c :: rest =>
    if c = '"' then some ([], rest)
    else if c = '\\' then
      match rest with
      | [] => none
      | e :: rest2 =>
        if e = 'u' then
          match rest2 with
          | h1 :: h2 :: h3 :: h4 :: rest3 =>
            match hexVal h1, hexVal h2, hexVal h3, hexVal h4 with
            | some a, some b, some c2, some d =>
              match parseStringBody rest3 with
              | some (s, r) => some (Char.ofNat (((a * 16 + b) * 16 + c2) * 16 + d) :: s, r)
              | none => none
            | _, _, _, _ => none
          | _ => none
        else
          match escChar e with
          | some ch =>
            match parseStringBody rest2 with
            | some (s, r) => some (ch :: s, r)
            | none => none
          | none => none
    else if c.toNat < 0x20 then none
    else
      match parseStringBody rest with
      | some (s, r) => some (c :: s, r)
      | none => none

def isDigitCh (c : Char) : Bool := '0' ≤ c && c ≤ '9'

def takeDigits : List Char → List Char × List Char
  | [] => ([], [])
  | c :: rest =>
    if isDigitCh c then
      let p := takeDigits rest
      (c :: p.1, p.2)
    else ([], c :: rest)

def digitsToNat (l : List Char) : Nat :=
  l.foldl (fun acc c => acc * 10 + (c.toNat - '0'.toNat)) 0

/-- JSON integer part: a single 0 or a nonzero digit followed by digits. -/
def parseIntPart : List Char → Option (Nat × List Char)
  | [] => none
  | c :: rest =>
    if c = '0' then some (0, rest)
    else if isDigitCh c then
      let p := takeDigits rest
      some (digitsToNat (c :: p.1), p.2)
    else none

/-- Optional JSON fraction part, as its digit list. -/
def parseFracDigits (l : List Char) : Option (List Char × List Char) :=
  match l with
  | [] => some ([], [])
  | c :: rest =>
    if c = '.' then
      let p := takeDigits rest
      if p.1.isEmpty then none
      else some (p.1, p.2)
    else some ([], l)

/-- Optional JSON exponent part. -/
def parseExp (l : List Char) : Option (Int × List Char) :=
  match l with
  | [] => some (0, [])
  | c :: rest =>
    if c = 'e' ∨ c = 'E' then
      let sl : Int × List Char :=
        match rest with
        | [] => (1, [])
        | d :: r2 => if d = '+' then (1, r2) else if d = '-' then (-1, r2) else (1, rest)
      let p := takeDigits sl.2
      if p.1.isEmpty then none
      else some (sl.1 * (digitsToNat p.1 : Int), p.2)
    else some (0, l)

/-- The numeric value, assembled with `mkRat` over integer arithmetic. -/
def parseNumber (l : List Char) : Option (ℚ × List Char) :=
  let sl : Int × List Char :=
    match l with
    | [] => (1, [])
    | c :: rest => if c = '-' then (-1, rest) else (1, l)
  match parseIntPart sl.2 with
  | none => none
  | some (ip, l2) =>
    match parseFracDigits l2 with
    | none => none
    | some (fd, l3) =>
      match parseExp l3 with
      | none => none
      | some (ex, l4) =>
        let base : Nat := 10 ^ fd.length
        let mantissa : Int := sl.1 * ((ip * base + digitsToNat fd : Nat) : Int)
        let q : ℚ :=
          if 0 ≤ ex then mkRat (mantissa * ((10 ^ ex.toNat : Nat) : Int)) base
          else mkRat mantissa (base * 10 ^ (-ex).toNat)
        some (q, l4)

mutual

/-- Recursive-descent JSON value, fuel-indexed (fuel bounds nesting work). -/
def parseValue : Nat → List Char → Option (Json × List Char)
  | 0, _ => none
  | fuel + 1, l =>
    match skipWs l with
    | [] => none
    | c :: rest =>
      if c = '"' then
        match parseStringBody rest with
        | some (s, r) => some (.str (String.mk s), r)
        | none => none
      else if c = lbrace then
        match skipWs rest with
        | [] => none
        | c2 :: r2 =>
          if c2 = rbrace then some (.obj [], r2)
          else
            match parseMembers fuel (c2 :: r2) with
            | some (ms, r) => some (.obj ms, r)
            | none => none
      else if c = '[' then
        match skipWs rest with
        | [] => none
        | c2 :: r2 =>
          if c2 = ']' then some (.arr [], r2)
          else
            match parseElems fuel (c2 :: r2) with
            | some (vs, r) => some (.arr vs, r)
            | none => none
      else if c = 't' then
        match rest with
        | 'r' :: 'u' :: 'e' :: r => some (.bool true, r)
        | _ => none
      else if c = 'f' then
        match rest with
        | 'a' :: 'l' :: 's' :: 'e' :: r => some (.bool false, r)
        | _ => none
      else if c = 'n' then
        match rest with
        | 'u' :: 'l' :: 'l' :: r => some (.null, r)
        | _ => none
      else
        match parseNumber (c :: rest) with
        | some (q, r) => some (.num q, r)
        | none => none

/-- One-or-more object members, consuming the closing brace. -/
def parseMembers : Nat → List Char → Option (List (String × Json) × List Char)
  | 0, _ => none
  | fuel + 1, l =>
    match skipWs l with
    | [] => none
    | c :: rest =>
      if c = '"' then
        match parseStringBody rest with
        | none => none
        | some (k, r1) =>
          match skipWs r1 with
          | [] => none
          | c2 :: r2 =>
            if c2 = ':' then
              match parseValue fuel r2 with
              | none => none
              | some (v, r3) =>
                match skipWs r3 with
                | [] => none
                | c3 :: r4 =>
                  if c3 = ',' then
                    match parseMembers fuel r4 with
                    | some (ms, r5) => some ((String.mk k, v) :: ms, r5)
                    | none => none
                  else if c3 = rbrace then some ([(String.mk k, v)], r4)
                  else none
            else none
      else none

/-- One-or-more array elements, consuming the closing bracket. -/
def parseElems : Nat → List Char → Option (List Json × List Char)
  | 0, _ => none
  | fuel + 1, l =>
    match parseValue fuel l with
    | none => none
    | some (v, r1) =>
      match skipWs r1 with
      | [] => none
      | c :: r2 =>
        if c = ',' then
          match parseElems fuel r2 with
          | some (vs, r3) => some (v :: vs, r3)
          | none => none
        else if c = ']' then some ([v], r2)
        else none

end

/-- JSON.parse: a complete value with only whitespace around it. -/
def parseJson (s : String) : Option Json :=
  match parseValue (2 * s.length + 2) s.data with
  | some (v, rest) => if (skipWs rest).isEmpty then some v else none
  | none => none

/-! ## The lazy brace regex

The worker matches the extractor output against the lazy pattern
"opening brace, any characters non-greedily, closing brace": the match, when
one exists, runs from the first opening brace to the first closing brace
after it. -/

/-- Consume characters up to and including the first closing brace. -/
def takeThroughClose : List Char → Option (List Char)
  | [] => none
  | c :: rest =>
    if c = rbrace then some [c]
    else
      match takeThroughClose rest with
      | some t => some (c :: t)
      | none => none

def lazyBraceMatchL : List Char → Option (List Char)
  | [] => none
  | c :: rest =>
    if c = lbrace then
      match takeThroughClose rest with
      | some t => some (c :: t)
      | none => none
    else lazyBraceMatchL rest

def lazyBraceMatch (s : String) : Option String :=
  (lazyBraceMatchL s.data).map String.mk

/-! ## JavaScript coercions used by the proposal validation -/

/-- Property access on a parsed JSON value; JSON.parse keeps the last of
duplicate keys, hence the reversed lookup.  Absent keys (and non-objects)
give undefined, modelled as none. -/
def jfield (data : Json) (k : String) : Option Json :=
  match data with
  | .obj fields => ((fields.reverse).find? (fun p => p.1 == k)).map (·.2)
  | _ => none

/-- JS Number() on a possibly-undefined string, as used on numeric string
literals; none models NaN.  The empty (trimmed) string is 0. -/
def strToNumber (s : String) : Option ℚ :=
  let t := jsTrim s.data
  if t.isEmpty then some 0
  else
    match parseNumber t with
    | some (q, rest) => if rest.isEmpty then some q else none
    | none => none

/-- JS Number() coercion of a JSON value; none models NaN.  Aggregate
coercions are approximated (empty array is 0, other aggregates NaN); the
handlers never reach those cases. -/
def jsNumber : Option Json → Option ℚ
  | none => none
  | some .null => some 0
  | some (.bool b) => some (if b then 1 else 0)
  | some (.num q) => some q
  | some (.str s) => strToNumber s
  | some (.arr []) => some 0
  | some (.arr (_ :: _)) => none
  | some (.obj _) => none

/-- JS truthiness of a possibly-undefined JSON value. -/
def jsTruthy : Option Json → Bool
  | none => false
  | some .null => false
  | some (.bool b) => b
  | some (.num q) => decide (q ≠ 0)
  | some (.str s) => decide (s ≠ "")
  | some (.arr _) => true
  | some (.obj _) => true

/-- JS String() coercion; number formatting is exact for integers and
approximated otherwise, aggregates are approximated.  The handlers only ever
apply it to strings in the claims below. -/
def jsToString : Json → String
  | .null => "null"
  | .bool true => "true"
  | .bool false => "false"
  | .str s => s
  | .num q => if q.den = 1 then toString q.num else toString q.num ++ "/" ++ toString q.den
  | .arr _ => ""
  | .obj _ => "[object Object]"

/-! ## Chat pipeline: post-extraction validation and turn assembly -/

structure ContributionPending where
  item_id : Nat
  item_title : String
  name : String
  amount : ℚ
  message : String
deriving DecidableEq

structure CancellationPending where
  contribution_id : Nat
  item_title : String
  amount : ℚ
deriving DecidableEq

/-- JS `x ?? Json.str ""` then String(): undefined and null give the empty
string. -/
def jsStringOrEmpty (v : Option Json) : String :=
  match v with
  | none => ""
  | some .null => ""
  | some v => jsToString v

/-- Embedding of the post-extraction validation block of `handleChat`:
given the registry snapshot, the caller's contributions, and the parsed
extractor object, decide which pending action (if any) is surfaced. -/
def validateProposals (items : List Item) (myContributions : List Contribution)
    (data : Json) : Option ContributionPending × Option CancellationPending :=
  match jfield data "action" with
  | some (.str action) =>
    if action = "contribute" then
      let found : Option Item :=
        match jsNumber (jfield data "item_id") with
        | none => none
        | some q => items.find? (fun i => decide ((i.id : ℚ) = q))
      match found with
      | some item =>
        if jsTruthy (jfield data "name") &&
           (match jsNumber (jfield data "amount") with
            | some a => decide (0 < a)
            | none => false) &&
           decide (item.is_funded = 0) then
          (some ⟨item.id, item.title,
                 jsToString ((jfield data "name").getD .null),
                 (jsNumber (jfield data "amount")).getD 0,
                 jsStringOrEmpty (jfield data "message")⟩, none)
        else (none, none)
      | none => (none, none)
    else if action = "cancel" then
      let found : Option Contribution :=
        match jsNumber (jfield data "contribution_id") with
        | none => none
        | some q => myContributions.find? (fun c => decide ((c.id : ℚ) = q))
      match found with
      | some existing =>
        (none, some ⟨existing.id,
                     existing.item_title.getD (jsStringOrEmpty (jfield data "item_title")),
                     existing.amount⟩)
      | none => (none, none)
    else (none, none)
  | _ => (none, none)

def cannedApology : String :=
  "Estou com dificuldades em responder agora. Por favor tenta novamente!"

def markerHead : List Char := "[CONTRIBUTION:".data

/-- Consume characters through the first closing bracket, or fail. -/
def dropThroughRBracket : List Char → Option (List Char)
  | [] => none
  | c :: rest => if c = ']' then some rest else dropThroughRBracket rest

/-- Global replacement of the marker pattern "[CONTRIBUTION:" up to the next
closing bracket, as the worker strips from the conversational reply. -/
def stripMarkersAux : Nat → List Char → List Char
  | 0, l => l
  | fuel + 1, l =>
    match l with
    | [] => []
    | c :: rest =>
      if markerHead.isPrefixOf l then
        match dropThroughRBracket (l.drop markerHead.length) with
        | some rem => stripMarkersAux fuel rem
        | none => c :: stripMarkersAux fuel rest
      else c :: stripMarkersAux fuel rest

def stripMarkers (s : String) : String :=
  String.mk (stripMarkersAux s.data.length s.data)

/-- The try-block around the regex match, JSON.parse and the validation: any
parse failure is caught and surfaced as no pending action. -/
def extractPendings (items : List Item) (myContributions : List Contribution)
    (extractorRaw : String) : Option ContributionPending × Option CancellationPending :=
  match lazyBraceMatch extractorRaw with
  | none => (none, none)
  | some sub =>
    match parseJson sub with
    | none => (none, none)
    | some data => validateProposals items myContributions data

structure ChatOk where
  reply : String
  contribution_pending : Option ContributionPending
  cancellation_pending : Option CancellationPending

/-- Embedding of `handleChat` (POST /api/chat).  The two model calls are
passed as outcomes: `.error ()` models a rejected call (the exception
propagates out of the handler), `.ok none` a completed call whose result has
no usable `response` field, `.ok (some s)` a reply `s`.  The commented-out
chat rate limiter of the source is not modelled. -/
def handleChat (items : List Item) (myContributions : List Contribution)
    (authorised : Bool) (message : Option String)
    (aiOutcome : Except Unit (Option String))
    (extractorOutcome : Except Unit (Option String)) :
    Except Unit (Except ApiError ChatOk) :=
  if ¬ authorised then .ok (.error ⟨401, "Unauthorized"⟩)
  else
    let msg := sanitise message MAX_MESSAGE_LENGTH
    if msg = "" then .ok (.error ⟨400, "message is required"⟩)
    else
      match aiOutcome with
      | .error _ => .error ()
      | .ok aiResp =>
        let rawReply := aiResp.getD cannedApology
        let reply := String.mk (jsTrim (stripMarkers rawReply).data)
        match extractorOutcome with
        | .error _ => .error ()
        | .ok eResp =>
          let extractorRaw := eResp.getD "null"
          let p := extractPendings items myContributions extractorRaw
          .ok (.ok ⟨reply, p.1, p.2⟩)

/-- The top-level fetch boundary: an exception escaping a handler becomes the
generic Internal Server Error response. -/
def chatEndpoint (items : List Item) (myContributions : List Contribution)
    (authorised : Bool) (message : Option String)
    (aiOutcome : Except Unit (Option String))
    (extractorOutcome : Except Unit (Option String)) :
    Except ApiError ChatOk :=
  match handleChat items myContributions authorised message aiOutcome extractorOutcome with
  | .error _ => .error ⟨500, "Internal Server Error"⟩
  | .ok r => r

/-! ## Helper lemmas -/

theorem find?_updateItemsWhere (items : List Item) (id : Nat) (f : Item → Item)
    (hf : ∀ it, (f it).id = it.id) :
    (updateItemsWhere items id f).find? (fun it => it.id == id)
      = (items.find? (fun it => it.id == id)).map f := by
  induction items with
  | nil => rfl
  | cons a l ih =>
    cases hc : (a.id == id) with
    | true =>
      have hfa : ((f a).id == id) = true := by rw [hf]; exact hc
      simp [updateItemsWhere, List.find?, hc, hfa]
    | false =>
      simpa [updateItemsWhere, List.find?, hc] using ih

theorem mem_updateItemsWhere_of_ne (items : List Item) (id : Nat) (f : Item → Item)
    (it : Item) (hmem : it ∈ items) (hne : ¬ it.id = id) :
    it ∈ updateItemsWhere items id f := by
  have h2 := List.mem_map_of_mem (fun it => if it.id == id then f it else it) hmem
  simpa [updateItemsWhere, hne] using h2

theorem find?_append_of_none {α : Type} (p : α → Bool) (l₁ l₂ : List α)
    (h : l₁.find? p = none) : (l₁ ++ l₂).find? p = l₂.find? p := by
  induction l₁ with
  | nil => rfl
  | cons a l ih =>
    cases hc : p a with
    | true => simp [List.find?, hc] at h
    | false =>
      simp only [List.find?, hc] at h
      simpa [List.find?, hc] using ih h

/-- Unfolding of a successful AddContribution. -/
theorem createContribution_eq
    (db : DB) (itemId : Nat) (rawName : Option String) (amount : ℚ)
    (rawMessage : Option String) (ip : String) (item : Item)
    (hfind : findItem db itemId = some item)
    (hopen : ¬ item.is_funded = 1)
    (hname : sanitise rawName MAX_NAME_LENGTH ≠ "")
    (hamount : 0 < amount)
    (hid : itemId ≠ 0) :
    handleCreateContribution db itemId rawName amount rawMessage ip =
      (.ok ⟨jsMin amount (item.price_total - item.price_raised),
            item.price_raised + jsMin amount (item.price_total - item.price_raised),
            decide ((if item.price_raised + jsMin amount (item.price_total - item.price_raised)
                       ≥ item.price_total then (1 : ℚ) else 0) = 1)⟩,
       { items := updateItemsWhere db.items itemId
           (fun it => { it with
             price_raised := item.price_raised +
               jsMin amount (item.price_total - item.price_raised),
             is_funded := if item.price_raised +
                 jsMin amount (item.price_total - item.price_raised) ≥ item.price_total
               then 1 else 0 }),
         contributions := db.contributions ++
           [⟨db.nextContribId, itemId, sanitise rawName MAX_NAME_LENGTH, some ip,
             jsMin amount (item.price_total - item.price_raised),
             sanitise rawMessage MAX_MESSAGE_LENGTH, none⟩],
         nextContribId := db.nextContribId + 1 }) := by
  have h0 : (itemId == 0) = false := by simpa using hid
  have hle : ¬ amount ≤ 0 := not_le.mpr hamount
  simp only [handleCreateContribution, h0, Bool.false_eq_true, if_false, if_neg hname,
    if_neg hle, hfind, if_neg hopen]

/-- Unfolding of a successful owner cancellation. -/
theorem deleteMyContribution_eq (db : DB) (id : Nat) (ip : String) (c : Contribution)
    (hfind : db.contributions.find?
      (fun c2 => c2.id == id && c2.contributor_ip == some ip) = some c) :
    handleDeleteMyContribution db id ip =
      (.ok (), { db with
        contributions := db.contributions.filter (fun c2 => c2.id != id),
        items := updateItemsWhere db.items c.item_id
          (fun it => { it with price_raised := jsMax 0 (it.price_raised - c.amount),
                               is_funded := 0 }) }) := by
  simp only [handleDeleteMyContribution, hfind]

/-- Unfolding of a successful admin cancellation. -/
theorem adminDeleteContribution_eq (db : DB) (id : Nat) (c : Contribution)
    (hfind : db.contributions.find? (fun c2 => c2.id == id) = some c) :
    handleAdminDeleteContribution db id =
      (.ok (), { db with
        contributions := db.contributions.filter (fun c2 => c2.id != id),
        items := updateItemsWhere db.items c.item_id
          (fun it => { it with price_raised := jsMax 0 (it.price_raised - c.amount),
                               is_funded := 0 }) }) := by
  simp only [handleAdminDeleteContribution, hfind]

/-! ## Concrete fixtures for witnesses and counterexamples -/

def item1 : Item := ⟨1, "Bercinho", "cama de grades", "", "", 100, 80, 0, "t1"⟩

def db1 : DB := ⟨[item1], [], 1⟩

/-! ## C1 -/

/-- C1: for an existing, not-yet-funded item and a valid contribution request,
AddContribution computes remaining, the clipped applied amount, the new raised
total and the funded flag, inserts the contribution row carrying the applied
(not requested) amount, updates the item in the same batch, returns the three
values, and never pushes price_raised past price_total. -/
theorem addContribution_applies_and_clips
    (db : DB) (itemId : Nat) (rawName : Option String) (amount : ℚ)
    (rawMessage : Option String) (ip : String) (item : Item)
    (hfind : findItem db itemId = some item)
    (hopen : ¬ item.is_funded = 1)
    (hname : sanitise rawName MAX_NAME_LENGTH ≠ "")
    (hamount : 0 < amount)
    (hid : itemId ≠ 0) :
    (handleCreateContribution db itemId rawName amount rawMessage ip).1 =
      .ok ⟨jsMin amount (item.price_total - item.price_raised),
           item.price_raised + jsMin amount (item.price_total - item.price_raised),
           decide ((if item.price_raised + jsMin amount (item.price_total - item.price_raised)
                      ≥ item.price_total then (1 : ℚ) else 0) = 1)⟩ ∧
    (handleCreateContribution db itemId rawName amount rawMessage ip).2.contributions =
      db.contributions ++
        [⟨db.nextContribId, itemId, sanitise rawName MAX_NAME_LENGTH, some ip,
          jsMin amount (item.price_total - item.price_raised),
          sanitise rawMessage MAX_MESSAGE_LENGTH, none⟩] ∧
    findItem (handleCreateContribution db itemId rawName amount rawMessage ip).2 itemId =
      some { item with
        price_raised := item.price_raised + jsMin amount (item.price_total - item.price_raised),
        is_funded := if item.price_raised + jsMin amount (item.price_total - item.price_raised)
            ≥ item.price_total then 1 else 0 } ∧
    item.price_raised + jsMin amount (item.price_total - item.price_raised)
      ≤ item.price_total ∧
    (decide ((if item.price_raised + jsMin amount (item.price_total - item.price_raised)
                ≥ item.price_total then (1 : ℚ) else 0) = 1) = true
      ↔ item.price_total ≤ item.price_raised +
          jsMin amount (item.price_total - item.price_raised)) := by
  have heq := createContribution_eq db itemId rawName amount rawMessage ip item
    hfind hopen hname hamount hid
  refine ⟨by rw [heq], by rw [heq], ?_, ?_, ?_⟩
  · rw [heq]
    simp only [findItem] at hfind ⊢
    refine (find?_updateItemsWhere db.items itemId
        (fun it => { it with
          price_raised := item.price_raised + jsMin amount (item.price_total - item.price_raised),
          is_funded := if item.price_raised + jsMin amount (item.price_total - item.price_raised)
              ≥ item.price_total then 1 else 0 })
        (fun it => rfl)).trans ?_
    rw [hfind]
    rfl
  · calc item.price_raised + jsMin amount (item.price_total - item.price_raised)
        ≤ item.price_raised + (item.price_total - item.price_raised) := by
          rw [jsMin_eq_min]
          exact add_le_add_left (min_le_right _ _) _
      _ = item.price_total := by ring
  · by_cases hge : item.price_raised + jsMin amount (item.price_total - item.price_raised)
        ≥ item.price_total
    · simp [hge]
    · simp [hge]

/-- Witness for C1 at price_total 100, price_raised 80, amount 50: the applied
amount is 20, the new raised total 100, and the item becomes funded. -/
theorem addContribution_applies_and_clips_witness :
    (findItem db1 1 = some item1 ∧ ¬ item1.is_funded = 1 ∧
     sanitise (some "Ana") MAX_NAME_LENGTH ≠ "" ∧ (0 : ℚ) < 50 ∧ (1 : Nat) ≠ 0) ∧
    (handleCreateContribution db1 1 (some "Ana") 50 none "203.0.113.9").1 =
      .ok ⟨20, 100, true⟩ := by
  have h := addContribution_applies_and_clips db1 1 (some "Ana") 50 none "203.0.113.9" item1
    (by decide) (by decide) (by decide) (by decide) (by decide)
  refine ⟨⟨by decide, by decide, by decide, by decide, by decide⟩, ?_⟩
  rw [h.1]
  norm_num [jsMin, item1, decide_eq_true_eq]

/-! ## C3 -/

/-- C3: a valid AddContribution request fails with 404 when the item is
absent and with 409 when it is already funded, leaving the database unchanged
in both cases. -/
theorem addContribution_notFound_and_conflict :
    (∀ (db : DB) (itemId : Nat) (rawName : Option String) (amount : ℚ)
        (rawMessage : Option String) (ip : String),
      itemId ≠ 0 → sanitise rawName MAX_NAME_LENGTH ≠ "" → 0 < amount →
      findItem db itemId = none →
      handleCreateContribution db itemId rawName amount rawMessage ip =
        (.error ⟨404, "Item not found"⟩, db)) ∧
    (∀ (db : DB) (itemId : Nat) (rawName : Option String) (amount : ℚ)
        (rawMessage : Option String) (ip : String) (item : Item),
      itemId ≠ 0 → sanitise rawName MAX_NAME_LENGTH ≠ "" → 0 < amount →
      findItem db itemId = some item → item.is_funded = 1 →
      handleCreateContribution db itemId rawName amount rawMessage ip =
        (.error ⟨409, "This item is already fully funded"⟩, db)) := by
  constructor
  · intro db itemId rawName amount rawMessage ip hid hname hamount hfind
    have h0 : (itemId == 0) = false := by simpa using hid
    have hle : ¬ amount ≤ 0 := not_le.mpr hamount
    simp only [handleCreateContribution, h0, Bool.false_eq_true, if_false,
      if_neg hname, if_neg hle, hfind]
  · intro db itemId rawName amount rawMessage ip item hid hname hamount hfind hfunded
    have h0 : (itemId == 0) = false := by simpa using hid
    have hle : ¬ amount ≤ 0 := not_le.mpr hamount
    simp only [handleCreateContribution, h0, Bool.false_eq_true, if_false,
      if_neg hname, if_neg hle, hfind, if_pos hfunded]

def itemFunded : Item := ⟨3, "Cadeira", "", "", "", 50, 50, 1, "t3"⟩

def dbFunded : DB := ⟨[itemFunded], [], 1⟩

/-- Witness for C3: item id 9 is absent (404); item id 3 is funded (409). -/
theorem addContribution_notFound_and_conflict_witness :
    ((9 : Nat) ≠ 0 ∧ sanitise (some "Ana") MAX_NAME_LENGTH ≠ "" ∧ (0 : ℚ) < 5 ∧
      findItem dbFunded 9 = none ∧ findItem dbFunded 3 = some itemFunded ∧
      itemFunded.is_funded = 1) ∧
    handleCreateContribution dbFunded 9 (some "Ana") 5 none "ip" =
      (.error ⟨404, "Item not found"⟩, dbFunded) ∧
    handleCreateContribution dbFunded 3 (some "Ana") 5 none "ip" =
      (.error ⟨409, "This item is already fully funded"⟩, dbFunded) := by
  refine ⟨⟨by decide, by decide, by decide, by decide, by decide, by decide⟩, ?_, ?_⟩
  · exact addContribution_notFound_and_conflict.1 dbFunded 9 (some "Ana") 5 none "ip"
      (by decide) (by decide) (by decide) (by decide)
  · exact addContribution_notFound_and_conflict.2 dbFunded 3 (some "Ana") 5 none "ip"
      itemFunded (by decide) (by decide) (by decide) (by decide) (by decide)

/-! ## C2 -/

/-- C2: cancelling an existing, authorised contribution — by the owner route
or by the admin route — deletes the row and, in the same batch, floors the
item's price_raised at zero (never negative) and unconditionally resets
is_funded to false. -/
theorem cancelContribution_floors_and_unfunds :
    (∀ (db : DB) (id : Nat) (ip : String) (c : Contribution) (item : Item),
      db.contributions.find?
        (fun c2 => c2.id == id && c2.contributor_ip == some ip) = some c →
      findItem db c.item_id = some item →
      (handleDeleteMyContribution db id ip).1 = .ok () ∧
      (handleDeleteMyContribution db id ip).2.contributions
        = db.contributions.filter (fun c2 => c2.id != id) ∧
      findItem (handleDeleteMyContribution db id ip).2 c.item_id
        = some { item with price_raised := jsMax 0 (item.price_raised - c.amount),
                           is_funded := 0 } ∧
      0 ≤ jsMax 0 (item.price_raised - c.amount)) ∧
    (∀ (db : DB) (id : Nat) (c : Contribution) (item : Item),
      db.contributions.find? (fun c2 => c2.id == id) = some c →
      findItem db c.item_id = some item →
      (handleAdminDeleteContribution db id).1 = .ok () ∧
      (handleAdminDeleteContribution db id).2.contributions
        = db.contributions.filter (fun c2 => c2.id != id) ∧
      findItem (handleAdminDeleteContribution db id).2 c.item_id
        = some { item with price_raised := jsMax 0 (item.price_raised - c.amount),
                           is_funded := 0 } ∧
      0 ≤ jsMax 0 (item.price_raised - c.amount)) := by
  constructor
  · intro db id ip c item hfc hfi
    have heq := deleteMyContribution_eq db id ip c hfc
    refine ⟨by rw [heq], by rw [heq], ?_, ?_⟩
    · rw [heq]
      simp only [findItem] at hfi ⊢
      refine (find?_updateItemsWhere db.items c.item_id
          (fun it => { it with price_raised := jsMax 0 (it.price_raised - c.amount),
                               is_funded := 0 })
          (fun it => rfl)).trans ?_
      rw [hfi]
      rfl
    · rw [jsMax_eq_max]; exact le_max_left _ _
  · intro db id c item hfc hfi
    have heq := adminDeleteContribution_eq db id c hfc
    refine ⟨by rw [heq], by rw [heq], ?_, ?_⟩
    · rw [heq]
      simp only [findItem] at hfi ⊢
      refine (find?_updateItemsWhere db.items c.item_id
          (fun it => { it with price_raised := jsMax 0 (it.price_raised - c.amount),
                               is_funded := 0 })
          (fun it => rfl)).trans ?_
      rw [hfi]
      rfl
    · rw [jsMax_eq_max]; exact le_max_left _ _

def itemW2 : Item := ⟨2, "Carrinho", "", "", "", 120, 100, 0, "t2"⟩

def contribW2 : Contribution := ⟨7, 2, "Rui", some "ipA", 150, "", none⟩

def db2 : DB := ⟨[itemW2], [contribW2], 8⟩

/-- Witness for C2: cancelling amount 150 against price_raised 100 floors the
raised amount at zero (both routes), never negative. -/
theorem cancelContribution_floors_and_unfunds_witness :
    (db2.contributions.find?
      (fun c2 => c2.id == 7 && c2.contributor_ip == some "ipA") = some contribW2 ∧
     db2.contributions.find? (fun c2 => c2.id == 7) = some contribW2 ∧
     findItem db2 2 = some itemW2) ∧
    findItem (handleDeleteMyContribution db2 7 "ipA").2 2
      = some { itemW2 with price_raised := 0, is_funded := 0 } ∧
    findItem (handleAdminDeleteContribution db2 7).2 2
      = some { itemW2 with price_raised := 0, is_funded := 0 } := by
  have h1 := cancelContribution_floors_and_unfunds.1 db2 7 "ipA" contribW2 itemW2
    (by decide) (by decide)
  have h2 := cancelContribution_floors_and_unfunds.2 db2 7 contribW2 itemW2
    (by decide) (by decide)
  refine ⟨⟨by decide, by decide, by decide⟩, ?_, ?_⟩
  · refine h1.2.2.1.trans ?_
    norm_num [jsMax, itemW2, contribW2]
  · refine h2.2.2.1.trans ?_
    norm_num [jsMax, itemW2, contribW2]

/-! ## C7 -/

/-- C7: for the owner cancellation route, an identity mismatch on an existing
contribution and a wholly absent contribution id produce the very same 404
response, with no state change in either case. -/
theorem ownerCancel_absence_indistinguishable :
    (∀ (db : DB) (id : Nat) (ip : String),
      (∀ c ∈ db.contributions, ¬ (c.id = id ∧ c.contributor_ip = some ip)) →
      handleDeleteMyContribution db id ip = (.error ⟨404, "Não encontrado"⟩, db)) ∧
    (∀ (db db' : DB) (id id' : Nat) (ip ip' : String),
      (∀ c ∈ db.contributions, ¬ (c.id = id ∧ c.contributor_ip = some ip)) →
      (∀ c ∈ db'.contributions, ¬ (c.id = id' ∧ c.contributor_ip = some ip')) →
      (handleDeleteMyContribution db id ip).1 = (handleDeleteMyContribution db' id' ip').1) := by
  have key : ∀ (db : DB) (id : Nat) (ip : String),
      (∀ c ∈ db.contributions, ¬ (c.id = id ∧ c.contributor_ip = some ip)) →
      handleDeleteMyContribution db id ip = (.error ⟨404, "Não encontrado"⟩, db) := by
    intro db id ip h
    have hfind : db.contributions.find?
        (fun c => c.id == id && c.contributor_ip == some ip) = none := by
      rw [List.find?_eq_none]
      intro c hc
      simpa using h c hc
    simp only [handleDeleteMyContribution, hfind]
  exact ⟨key, fun db db' id id' ip ip' h h' => by rw [key db id ip h, key db' id' ip' h']⟩

/-- Witness for C7: contribution 7 exists but belongs to "ipA", so caller
"ipB" gets 404; id 99 does not exist at all and gets the same 404. -/
theorem ownerCancel_absence_indistinguishable_witness :
    ((∀ c ∈ db2.contributions, ¬ (c.id = 7 ∧ c.contributor_ip = some "ipB")) ∧
     (∀ c ∈ db2.contributions, ¬ (c.id = 99 ∧ c.contributor_ip = some "ipA"))) ∧
    handleDeleteMyContribution db2 7 "ipB" = (.error ⟨404, "Não encontrado"⟩, db2) ∧
    (handleDeleteMyContribution db2 7 "ipB").1
      = (handleDeleteMyContribution db2 99 "ipA").1 := by
  refine ⟨⟨by decide, by decide⟩, ?_, ?_⟩
  · exact ownerCancel_absence_indistinguishable.1 db2 7 "ipB" (by decide)
  · exact ownerCancel_absence_indistinguishable.2 db2 db2 7 99 "ipB" "ipA"
      (by decide) (by decide)

/-! ## C4 -/

theorem rlGet_rlDelete (st : RLStore) (k : RLKey) : rlGet (rlDelete st k) k = none := by
  induction st with
  | nil => rfl
  | cons e l ih =>
    cases hc : (e.1 == k) with
    | true => simpa [rlDelete, List.filter_cons, bne, hc] using ih
    | false =>
      simp only [rlDelete, List.filter_cons, bne, hc] at ih ⊢
      simp [rlGet, List.find?, hc]

theorem rlGet_map_incr (st : RLStore) (k : RLKey) :
    rlGet (st.map (fun e => if e.1 == k then (e.1, e.2 + 1) else e)) k
      = (rlGet st k).map (· + 1) := by
  induction st with
  | nil => rfl
  | cons e l ih =>
    cases hc : (e.1 == k) with
    | true => simp [rlGet, List.find?, hc]
    | false =>
      simp only [rlGet, List.map_cons, hc, if_false] at ih ⊢
      simpa [List.find?, hc] using ih

theorem rlGet_rlIncr (st : RLStore) (k : RLKey) :
    rlGet (rlIncr st k) k = some ((rlGet st k).getD 0 + 1) := by
  cases hg : rlGet st k with
  | some n =>
    have hs : rlIncr st k = st.map (fun e => if e.1 == k then (e.1, e.2 + 1) else e) := by
      unfold rlIncr
      rw [hg]
      rfl
    rw [hs, rlGet_map_incr, hg]
    rfl
  | none =>
    have h1 : st.find? (fun e => e.1 == k) = none := by
      simpa [rlGet, Option.map_eq_none'] using hg
    have hs : rlIncr st k = st ++ [(k, 1)] := by
      unfold rlIncr
      rw [hg]
      rfl
    rw [hs, rlGet, find?_append_of_none _ _ _ h1]
    simp [List.find?]

def adminWrong (st : RLStore) : RLStore :=
  (handleAdminAuth st "198.51.100.5" "2026-04-11" (some "errada") "segredo").2

def guestWrong (st : RLStore) : RLStore :=
  (handleGuestAuth st "198.51.100.5" "2026-04-11" (some "errada") "mimo").2

/-- C4: on each auth endpoint, an attempt counter at 10 or more yields
RateLimited regardless of the submitted password; a correct password below
the limit deletes the counter and succeeds; a wrong password increments the
counter and yields Unauthorized; and ten consecutive wrong passwords make the
eleventh attempt RateLimited even with the correct password. -/
theorem loginLimiter_throttles :
    (∀ (st : RLStore) (ip day : String) (password : Option String) (pw : String),
      10 ≤ (rlGet st ("admin:" ++ ip, day)).getD 0 →
      handleAdminAuth st ip day password pw = (.rateLimited, st)) ∧
    (∀ (st : RLStore) (ip day : String) (pw : String),
      (rlGet st ("admin:" ++ ip, day)).getD 0 < 10 →
      handleAdminAuth st ip day (some pw) pw
        = (.success, rlDelete st ("admin:" ++ ip, day)) ∧
      rlGet (handleAdminAuth st ip day (some pw) pw).2 ("admin:" ++ ip, day) = none) ∧
    (∀ (st : RLStore) (ip day : String) (password : Option String) (pw : String),
      (rlGet st ("admin:" ++ ip, day)).getD 0 < 10 → password ≠ some pw →
      handleAdminAuth st ip day password pw
        = (.unauthorized, rlIncr st ("admin:" ++ ip, day)) ∧
      rlGet (handleAdminAuth st ip day password pw).2 ("admin:" ++ ip, day)
        = some ((rlGet st ("admin:" ++ ip, day)).getD 0 + 1)) ∧
    (∀ (st : RLStore) (ip day : String) (password : Option String) (pw : String),
      10 ≤ (rlGet st ("guest:" ++ ip, day)).getD 0 →
      handleGuestAuth st ip day password pw = (.rateLimited, st)) ∧
    (∀ (st : RLStore) (ip day : String) (pw : String),
      (rlGet st ("guest:" ++ ip, day)).getD 0 < 10 →
      handleGuestAuth st ip day (some pw) pw
        = (.success, rlDelete st ("guest:" ++ ip, day)) ∧
      rlGet (handleGuestAuth st ip day (some pw) pw).2 ("guest:" ++ ip, day) = none) ∧
    (∀ (st : RLStore) (ip day : String) (password : Option String) (pw : String),
      (rlGet st ("guest:" ++ ip, day)).getD 0 < 10 → password ≠ some pw →
      handleGuestAuth st ip day password pw
        = (.unauthorized, rlIncr st ("guest:" ++ ip, day)) ∧
      rlGet (handleGuestAuth st ip day password pw).2 ("guest:" ++ ip, day)
        = some ((rlGet st ("guest:" ++ ip, day)).getD 0 + 1)) ∧
    (handleAdminAuth (adminWrong^[10] []) "198.51.100.5" "2026-04-11"
        (some "segredo") "segredo").1 = .rateLimited ∧
    (handleGuestAuth (guestWrong^[10] []) "198.51.100.5" "2026-04-11"
        (some "mimo") "mimo").1 = .rateLimited := by
  refine ⟨?_, ?_, ?_, ?_, ?_, ?_, by decide, by decide⟩
  · intro st ip day password pw h
    simp only [handleAdminAuth, if_pos h]
  · intro st ip day pw h
    have hn : ¬ 10 ≤ (rlGet st ("admin:" ++ ip, day)).getD 0 := not_le.mpr h
    constructor
    · simp [handleAdminAuth, if_neg hn]
    · simp [handleAdminAuth, if_neg hn, rlGet_rlDelete]
  · intro st ip day password pw h hne
    have hn : ¬ 10 ≤ (rlGet st ("admin:" ++ ip, day)).getD 0 := not_le.mpr h
    constructor
    · simp only [handleAdminAuth, if_neg hn, if_neg hne]
    · simp only [handleAdminAuth, if_neg hn, if_neg hne]
      exact rlGet_rlIncr st _
  · intro st ip day password pw h
    simp only [handleGuestAuth, if_pos h]
  · intro st ip day pw h
    have hn : ¬ 10 ≤ (rlGet st ("guest:" ++ ip, day)).getD 0 := not_le.mpr h
    constructor
    · simp [handleGuestAuth, if_neg hn]
    · simp [handleGuestAuth, if_neg hn, rlGet_rlDelete]
  · intro st ip day password pw h hne
    have hn : ¬ 10 ≤ (rlGet st ("guest:" ++ ip, day)).getD 0 := not_le.mpr h
    constructor
    · simp only [handleGuestAuth, if_neg hn, if_neg hne]
    · simp only [handleGuestAuth, if_neg hn, if_neg hne]
      exact rlGet_rlIncr st _

/-- Witness for C4: a stored counter of 10 rate-limits even a correct
password; an empty store lets a correct password through and a wrong one
increments the counter to 1. -/
theorem loginLimiter_throttles_witness :
    (10 ≤ (rlGet [(("admin:9.9.9.9", "2026-04-11"), 10)]
        ("admin:" ++ "9.9.9.9", "2026-04-11")).getD 0 ∧
     (rlGet ([] : RLStore) ("guest:" ++ "9.9.9.9", "2026-04-11")).getD 0 < 10 ∧
     (some "errada" : Option String) ≠ some "mimo") ∧
    handleAdminAuth [(("admin:9.9.9.9", "2026-04-11"), 10)] "9.9.9.9" "2026-04-11"
        (some "segredo") "segredo"
      = (.rateLimited, [(("admin:9.9.9.9", "2026-04-11"), 10)]) ∧
    handleGuestAuth [] "9.9.9.9" "2026-04-11" (some "mimo") "mimo"
      = (.success, rlDelete [] ("guest:" ++ "9.9.9.9", "2026-04-11")) ∧
    rlGet (handleGuestAuth [] "9.9.9.9" "2026-04-11" (some "errada") "mimo").2
        ("guest:" ++ "9.9.9.9", "2026-04-11") = some 1 := by
  refine ⟨⟨by decide, by decide, by decide⟩, ?_, ?_, ?_⟩
  · exact loginLimiter_throttles.1 [(("admin:9.9.9.9", "2026-04-11"), 10)]
      "9.9.9.9" "2026-04-11" (some "segredo") "segredo" (by decide)
  · exact (loginLimiter_throttles.2.2.2.2.1 [] "9.9.9.9" "2026-04-11" "mimo" (by decide)).1
  · exact (loginLimiter_throttles.2.2.2.2.2.1 [] "9.9.9.9" "2026-04-11"
      (some "errada") "mimo" (by decide) (by decide)).2

/-! ## C8 -/

def itemU : Item := ⟨4, "Banheira", "banheira bebé", "img", "url", 60, 10, 0, "t4"⟩

def dbU : DB := ⟨[itemU], [], 1⟩

def patchBlankTitle : ItemPatch := ⟨some "", some "nova descrição", none, none, some 80, none⟩

/-- Counterexample to C8: a patch whose title is blank is rejected with a 400
validation error — the title is not defaulted to the existing stored value,
so blank does not mean unchanged for the title field. -/
theorem updateItem_blankTitle_rejected :
    handleUpdateItem dbU 4 patchBlankTitle = (.error ⟨400, "title is required"⟩, dbU) := by
  rfl

/-- C8 (amended): for a patch with a non-blank title on an existing item,
every other free-text field that is blank or absent defaults to the existing
stored value, price_total and is_funded default when absent, and fields the
update statement does not mention — price_raised and created_at — as well as
other items and the contributions table are left unchanged.  A blank or
absent title, however, is rejected with a validation error. -/
theorem updateItem_defaults_except_title :
    ∀ (db : DB) (id : Nat) (patch : ItemPatch) (existing : Item),
      sanitise patch.title MAX_GENERIC_STRING ≠ "" →
      findItem db id = some existing →
      (handleUpdateItem db id patch).1 = .ok () ∧
      findItem (handleUpdateItem db id patch).2 id = some
        { existing with
          title := sanitise patch.title MAX_GENERIC_STRING,
          description := orElseStr (sanitise patch.description MAX_GENERIC_STRING)
            existing.description,
          image_url := orElseStr (sanitise patch.image_url MAX_GENERIC_STRING)
            existing.image_url,
          product_url := orElseStr (sanitise patch.product_url MAX_GENERIC_STRING)
            existing.product_url,
          price_total := patch.price_total.getD existing.price_total,
          is_funded := patch.is_funded.getD existing.is_funded } ∧
      (handleUpdateItem db id patch).2.contributions = db.contributions ∧
      (∀ it ∈ db.items, ¬ it.id = id → it ∈ (handleUpdateItem db id patch).2.items) := by
  intro db id patch existing htitle hfind
  have heq : handleUpdateItem db id patch =
      (.ok (), { db with items := updateItemsWhere db.items id (fun it =>
        { it with
          title := sanitise patch.title MAX_GENERIC_STRING,
          description := orElseStr (sanitise patch.description MAX_GENERIC_STRING)
            existing.description,
          image_url := orElseStr (sanitise patch.image_url MAX_GENERIC_STRING)
            existing.image_url,
          product_url := orElseStr (sanitise patch.product_url MAX_GENERIC_STRING)
            existing.product_url,
          price_total := patch.price_total.getD existing.price_total,
          is_funded := patch.is_funded.getD existing.is_funded }) }) := by
    simp only [handleUpdateItem, if_neg htitle, hfind]
  refine ⟨by rw [heq], ?_, by rw [heq], ?_⟩
  · rw [heq]
    simp only [findItem] at hfind ⊢
    refine (find?_updateItemsWhere db.items id
        (fun it =>
          { it with
            title := sanitise patch.title MAX_GENERIC_STRING,
            description := orElseStr (sanitise patch.description MAX_GENERIC_STRING)
              existing.description,
            image_url := orElseStr (sanitise patch.image_url MAX_GENERIC_STRING)
              existing.image_url,
            product_url := orElseStr (sanitise patch.product_url MAX_GENERIC_STRING)
              existing.product_url,
            price_total := patch.price_total.getD existing.price_total,
            is_funded := patch.is_funded.getD existing.is_funded })
        (fun it => rfl)).trans ?_
    rw [hfind]
    rfl
  · intro it hmem hne
    rw [heq]
    exact mem_updateItemsWhere_of_ne db.items id _ it hmem hne

def patchKeepTexts : ItemPatch := ⟨some "Banheira Nova", some "", none, none, none, some 1⟩

/-- Witness for C8: a patch with a fresh title but blank description and
absent urls and price keeps the stored description, urls, price_total,
price_raised and created_at of the item. -/
theorem updateItem_defaults_except_title_witness :
    (sanitise patchKeepTexts.title MAX_GENERIC_STRING ≠ "" ∧
     findItem dbU 4 = some itemU) ∧
    findItem (handleUpdateItem dbU 4 patchKeepTexts).2 4 = some
      { itemU with title := "Banheira Nova", is_funded := 1 } := by
  have h := updateItem_defaults_except_title dbU 4 patchKeepTexts itemU
    (by decide) (by decide)
  refine ⟨⟨by decide, by decide⟩, ?_⟩
  refine h.2.1.trans ?_
  decide

/-! ## C10 -/

/-- C10: a successful AddContribution immediately followed by owner
cancellation of the contribution it created returns the item's price_raised
exactly to its prior value — the stored row holds the clipped applied amount,
which never exceeds the updated raised total, so the floor never engages —
while is_funded is left false rather than restored. -/
theorem contribution_cancel_roundtrip
    (db : DB) (itemId : Nat) (rawName : Option String) (amount : ℚ)
    (rawMessage : Option String) (ip : String) (item : Item)
    (hfind : findItem db itemId = some item)
    (hopen : ¬ item.is_funded = 1)
    (hname : sanitise rawName MAX_NAME_LENGTH ≠ "")
    (hamount : 0 < amount)
    (hid : itemId ≠ 0)
    (hraised : 0 ≤ item.price_raised)
    (hids : ∀ c ∈ db.contributions, c.id < db.nextContribId) :
    (handleDeleteMyContribution
        (handleCreateContribution db itemId rawName amount rawMessage ip).2
        db.nextContribId ip).1 = .ok () ∧
    findItem (handleDeleteMyContribution
        (handleCreateContribution db itemId rawName amount rawMessage ip).2
        db.nextContribId ip).2 itemId = some { item with is_funded := 0 } ∧
    (∃ r, (handleCreateContribution db itemId rawName amount rawMessage ip).1 = .ok r ∧
      r.applied_amount ≤ r.new_raised) := by
  have heq := createContribution_eq db itemId rawName amount rawMessage ip item
    hfind hopen hname hamount hid
  set A := jsMin amount (item.price_total - item.price_raised) with hA
  set fQ : ℚ := if item.price_raised + A ≥ item.price_total then 1 else 0 with hfQ
  have hdb2 : (handleCreateContribution db itemId rawName amount rawMessage ip).2 =
      { items := updateItemsWhere db.items itemId
          (fun it => { it with price_raised := item.price_raised + A, is_funded := fQ }),
        contributions := db.contributions ++
          [⟨db.nextContribId, itemId, sanitise rawName MAX_NAME_LENGTH, some ip, A,
            sanitise rawMessage MAX_MESSAGE_LENGTH, none⟩],
        nextContribId := db.nextContribId + 1 } := congrArg Prod.snd heq
  have hnone : db.contributions.find?
      (fun c => c.id == db.nextContribId && c.contributor_ip == some ip) = none := by
    rw [List.find?_eq_none]
    intro c hc
    simp [Nat.ne_of_lt (hids c hc)]
  have hrow : (handleCreateContribution db itemId rawName amount rawMessage ip).2.contributions.find?
      (fun c => c.id == db.nextContribId && c.contributor_ip == some ip)
      = some ⟨db.nextContribId, itemId, sanitise rawName MAX_NAME_LENGTH, some ip, A,
              sanitise rawMessage MAX_MESSAGE_LENGTH, none⟩ := by
    rw [hdb2]
    show (db.contributions ++ _).find? _ = _
    rw [find?_append_of_none _ _ _ hnone]
    simp [List.find?]
  have heq2 := deleteMyContribution_eq
    (handleCreateContribution db itemId rawName amount rawMessage ip).2
    db.nextContribId ip
    ⟨db.nextContribId, itemId, sanitise rawName MAX_NAME_LENGTH, some ip, A,
     sanitise rawMessage MAX_MESSAGE_LENGTH, none⟩ hrow
  have hfind' : db.items.find? (fun it => it.id == itemId) = some item := by
    simpa [findItem] using hfind
  refine ⟨by rw [heq2], ?_, ?_⟩
  · rw [heq2]
    simp only [findItem]
    rw [hdb2]
    refine ((find?_updateItemsWhere _ itemId
        (fun it => { it with price_raised := jsMax 0 (it.price_raised - A), is_funded := 0 })
        (fun it => rfl)).trans ?_)
    rw [find?_updateItemsWhere db.items itemId
        (fun it => { it with price_raised := item.price_raised + A, is_funded := fQ })
        (fun it => rfl)]
    rw [hfind']
    simp only [Option.map_some']
    refine congrArg some ?_
    show Item.mk item.id item.title item.description item.image_url item.product_url
        item.price_total (jsMax 0 (item.price_raised + A - A)) 0 item.created_at = _
    have hfield : jsMax 0 (item.price_raised + A - A) = item.price_raised := by
      rw [jsMax_eq_max]
      have h1 : item.price_raised + A - A = item.price_raised := by ring
      rw [h1]
      exact max_eq_right hraised
    rw [hfield]
  · refine ⟨⟨A, item.price_raised + A, decide (fQ = 1)⟩, congrArg Prod.fst heq, ?_⟩
    exact (le_add_iff_nonneg_left A).mpr hraised

/-- Witness for C10 at the C1 numbers: contributing 50 to the 100/80 item and
immediately cancelling the created contribution returns price_raised to 80
with is_funded false. -/
theorem contribution_cancel_roundtrip_witness :
    (findItem db1 1 = some item1 ∧ ¬ item1.is_funded = 1 ∧
     sanitise (some "Ana") MAX_NAME_LENGTH ≠ "" ∧ (0 : ℚ) < 50 ∧ (1 : Nat) ≠ 0 ∧
     0 ≤ item1.price_raised ∧
     (∀ c ∈ db1.contributions, c.id < db1.nextContribId)) ∧
    findItem (handleDeleteMyContribution
        (handleCreateContribution db1 1 (some "Ana") 50 none "203.0.113.9").2
        db1.nextContribId "203.0.113.9").2 1 = some { item1 with is_funded := 0 } := by
  have h := contribution_cancel_roundtrip db1 1 (some "Ana") 50 none "203.0.113.9" item1
    (by decide) (by decide) (by decide) (by decide) (by decide) (by decide) (by decide)
  exact ⟨⟨by decide, by decide, by decide, by decide, by decide, by decide, by decide⟩, h.2.1⟩

/-! ## C6 -/

def exRawC6 : String :=
  "\x7b\"action\":\"cancel\",\"contribution_id\":7,\"item_title\":\"x\",\"amount\":\x7b\x7d\x7d"

def exSubC6 : String :=
  "\x7b\"action\":\"cancel\",\"contribution_id\":7,\"item_title\":\"x\",\"amount\":\x7b\x7d"

def exJsonC6 : Json :=
  .obj [("action", .str "cancel"), ("contribution_id", .num 7),
        ("item_title", .str "x"), ("amount", .obj [])]

/-- Counterexample to C6: this extractor output is itself a well-formed JSON
object (with a nested object value), so the first well-formed JSON object
substring exists and names an owned contribution; yet the pipeline's lazy
match stops at the first closing brace, the truncated substring fails to
parse, and the turn degrades to no action instead of surfacing the
cancellation the claim prescribes. -/
theorem jsonExtraction_lazy_counterexample :
    parseJson exRawC6 = some exJsonC6 ∧
    (validateProposals [] [contribW2] exJsonC6).2 = some ⟨7, "x", 150⟩ ∧
    lazyBraceMatch exRawC6 = some exSubC6 ∧
    parseJson exSubC6 = none ∧
    extractPendings [] [contribW2] exRawC6 = (none, none) := by
  exact ⟨by rfl, by decide, by decide, by rfl, by decide⟩

theorem takeThroughClose_append (mid post : List Char) (h : rbrace ∉ mid) :
    takeThroughClose (mid ++ rbrace :: post) = some (mid ++ [rbrace]) := by
  induction mid with
  | nil => simp [takeThroughClose]
  | cons a l ih =>
    have ha : ¬ a = rbrace := fun e => h (e ▸ List.mem_cons_self a l)
    have ih2 := ih (fun hm => h (List.mem_cons_of_mem a hm))
    simp [takeThroughClose, ha, ih2]

/-- C6 (amended): the pipeline matches the substring running from the first
opening brace to the first closing brace after it (the lazy pattern), and
attempts to parse exactly that substring; when no such substring exists, or
that substring is not well-formed JSON, the turn carries no pending action;
when it parses, exactly its parse drives the proposal validation. -/
theorem jsonExtraction_lazy_behavior :
    (∀ pre mid post : List Char, lbrace ∉ pre → rbrace ∉ mid →
      lazyBraceMatchL (pre ++ lbrace :: (mid ++ rbrace :: post))
        = some (lbrace :: (mid ++ [rbrace]))) ∧
    (∀ (items : List Item) (mcs : List Contribution) (raw : String),
      lazyBraceMatch raw = none → extractPendings items mcs raw = (none, none)) ∧
    (∀ (items : List Item) (mcs : List Contribution) (raw sub : String),
      lazyBraceMatch raw = some sub → parseJson sub = none →
      extractPendings items mcs raw = (none, none)) ∧
    (∀ (items : List Item) (mcs : List Contribution) (raw sub : String) (v : Json),
      lazyBraceMatch raw = some sub → parseJson sub = some v →
      extractPendings items mcs raw = validateProposals items mcs v) := by
  refine ⟨?_, ?_, ?_, ?_⟩
  · intro pre mid post hpre hmid
    induction pre with
    | nil =>
      simp [lazyBraceMatchL, takeThroughClose_append mid post hmid]
    | cons a l ih =>
      have ha : ¬ a = lbrace := fun e => hpre (e ▸ List.mem_cons_self a l)
      have ih2 := ih (fun hm => hpre (List.mem_cons_of_mem a hm))
      simpa [lazyBraceMatchL, ha] using ih2
  · intro items mcs raw hmatch
    simp only [extractPendings, hmatch]
  · intro items mcs raw sub hmatch hparse
    simp only [extractPendings, hmatch, hparse]
  · intro items mcs raw sub v hmatch hparse
    simp only [extractPendings, hmatch, hparse]

/-- Witness for C6 at a concrete prose-wrapped output: the matched substring
starts at the first opening brace and stops at the first closing brace. -/
theorem jsonExtraction_lazy_behavior_witness :
    (lbrace ∉ "Sure! ".data ∧ rbrace ∉ "\"a\":1".data) ∧
    lazyBraceMatchL ("Sure! ".data ++ lbrace :: ("\"a\":1".data ++ rbrace :: " done".data))
      = some (lbrace :: ("\"a\":1".data ++ [rbrace])) :=
  ⟨⟨by decide, by decide⟩,
   jsonExtraction_lazy_behavior.1 "Sure! ".data "\"a\":1".data " done".data
     (by decide) (by decide)⟩

/-! ## C9 -/

/-- Counterexample to C9: a rejected (thrown) model call propagates to the
top-level fetch boundary, which converts it to HTTP 500 — an HTTP error
response produced by a language-model failure, even for an authorised caller
with a non-empty message. -/
theorem chat_thrownFailure_yields_500 :
    chatEndpoint [] [] true (some "Olá") (.error ()) (.ok none)
      = .error ⟨500, "Internal Server Error"⟩ := rfl

/-- C9 (amended): a model call that completes — even with no usable response
field — never produces an HTTP error: the turn is 200 with the canned apology
(when the responder yields nothing) or the normal reply; an unauthorised
caller gets 401 and a blank message 400; but a model call that throws, in
either stage, surfaces as Internal Server Error 500. -/
theorem chat_resolvedFailure_degrades :
    ∀ (items : List Item) (mcs : List Contribution) (message : Option String)
      (airesp eresp : Option String)
      (aiOutcome extractorOutcome : Except Unit (Option String)),
      sanitise message MAX_MESSAGE_LENGTH ≠ "" →
      (chatEndpoint items mcs true message (.ok airesp) (.ok eresp)
        = .ok ⟨String.mk (jsTrim (stripMarkers (airesp.getD cannedApology)).data),
               (extractPendings items mcs (eresp.getD "null")).1,
               (extractPendings items mcs (eresp.getD "null")).2⟩) ∧
      (chatEndpoint items mcs true message (.ok none) (.ok eresp)
        = .ok ⟨cannedApology,
               (extractPendings items mcs (eresp.getD "null")).1,
               (extractPendings items mcs (eresp.getD "null")).2⟩) ∧
      chatEndpoint items mcs true message (.ok airesp) (.error ())
        = .error ⟨500, "Internal Server Error"⟩ ∧
      chatEndpoint items mcs true message (.error ()) extractorOutcome
        = .error ⟨500, "Internal Server Error"⟩ ∧
      chatEndpoint items mcs false message aiOutcome extractorOutcome
        = .error ⟨401, "Unauthorized"⟩ := by
  intro items mcs message airesp eresp aiOutcome extractorOutcome hmsg
  have hcanned : String.mk (jsTrim (stripMarkers cannedApology).data) = cannedApology := by
    decide
  refine ⟨?_, ?_, ?_, ?_, ?_⟩
  · simp only [chatEndpoint, handleChat, not_true, if_neg hmsg, if_false]
  · simp only [chatEndpoint, handleChat, not_true, if_neg hmsg, if_false, Option.getD_none,
      hcanned]
  · simp only [chatEndpoint, handleChat, not_true, if_neg hmsg, if_false]
  · simp only [chatEndpoint, handleChat, not_true, if_neg hmsg, if_false]
  · simp [chatEndpoint, handleChat]

/-- Witness for C9 on a concrete turn: a responder outcome with no response
field degrades to the canned apology with status 200. -/
theorem chat_resolvedFailure_degrades_witness :
    sanitise (some "Olá") MAX_MESSAGE_LENGTH ≠ "" ∧
    chatEndpoint [] [] true (some "Olá") (.ok none) (.ok none)
      = .ok ⟨cannedApology, none, none⟩ := by
  refine ⟨by decide, ?_⟩
  have h := (chat_resolvedFailure_degrades [] [] (some "Olá") none none
    (.ok none) (.ok none) (by decide)).2.1
  exact h.trans (by rfl)

/-! ## C5 -/

/-- C5: a contribute proposal is surfaced only when the referenced item is in
the registry snapshot, not funded, the amount a positive number and a name
present; a cancel proposal only when the referenced contribution id is among
the caller's own snapshot contributions; and whatever the extractor output,
the authorised turn completes normally with the proposals of the validation —
failed checks are silently dropped, never an error. -/
theorem chatProposal_validated_or_dropped :
    (∀ (items : List Item) (mcs : List Contribution) (data : Json)
        (p : ContributionPending),
      (validateProposals items mcs data).1 = some p →
      jfield data "action" = some (.str "contribute") ∧
      ∃ q item, jsNumber (jfield data "item_id") = some q ∧
        items.find? (fun i => decide ((i.id : ℚ) = q)) = some item ∧
        item ∈ items ∧ (item.id : ℚ) = q ∧
        jsTruthy (jfield data "name") = true ∧
        (∃ a, jsNumber (jfield data "amount") = some a ∧ 0 < a) ∧
        item.is_funded = 0 ∧
        p = ⟨item.id, item.title, jsToString ((jfield data "name").getD .null),
             (jsNumber (jfield data "amount")).getD 0,
             jsStringOrEmpty (jfield data "message")⟩) ∧
    (∀ (items : List Item) (mcs : List Contribution) (data : Json)
        (p : CancellationPending),
      (validateProposals items mcs data).2 = some p →
      jfield data "action" = some (.str "cancel") ∧
      ∃ q c, jsNumber (jfield data "contribution_id") = some q ∧
        mcs.find? (fun c2 => decide ((c2.id : ℚ) = q)) = some c ∧
        c ∈ mcs ∧ (c.id : ℚ) = q ∧
        p = ⟨c.id, c.item_title.getD (jsStringOrEmpty (jfield data "item_title")),
             c.amount⟩) ∧
    (∀ (items : List Item) (mcs : List Contribution) (message : Option String)
        (airesp eresp : Option String),
      sanitise message MAX_MESSAGE_LENGTH ≠ "" →
      handleChat items mcs true message (.ok airesp) (.ok eresp)
        = .ok (.ok ⟨String.mk (jsTrim (stripMarkers (airesp.getD cannedApology)).data),
                    (extractPendings items mcs (eresp.getD "null")).1,
                    (extractPendings items mcs (eresp.getD "null")).2⟩)) := by
  refine ⟨?_, ?_, ?_⟩
  · intro items mcs data p h
    unfold validateProposals at h
    cases hact : jfield data "action" with
    | none => rw [hact] at h; simp at h
    | some v =>
      rw [hact] at h
      cases v with
      | str action =>
        dsimp only at h
        by_cases hca : action = "contribute"
        · rw [if_pos hca] at h
          cases hnum : jsNumber (jfield data "item_id") with
          | none => rw [hnum] at h; simp at h
          | some q =>
            rw [hnum] at h
            dsimp only at h
            cases hfi : items.find? (fun i => decide ((i.id : ℚ) = q)) with
            | none => rw [hfi] at h; simp at h
            | some item =>
              rw [hfi] at h
              dsimp only at h
              by_cases hcond : (jsTruthy (jfield data "name") &&
                  (match jsNumber (jfield data "amount") with
                   | some a => decide (0 < a)
                   | none => false) && decide (item.is_funded = 0)) = true
              · rw [if_pos hcond] at h
                rw [Bool.and_eq_true, Bool.and_eq_true] at hcond
                obtain ⟨⟨hname, hamt⟩, hfund⟩ := hcond
                refine ⟨by rw [hca], q, item, rfl, hfi,
                  List.mem_of_find?_eq_some hfi,
                  by simpa using List.find?_some hfi, hname, ?_,
                  of_decide_eq_true hfund, ?_⟩
                · cases hna : jsNumber (jfield data "amount") with
                  | none => rw [hna] at hamt; cases hamt
                  | some a =>
                    rw [hna] at hamt
                    exact ⟨a, rfl, of_decide_eq_true hamt⟩
                · simpa using h.symm
              · rw [if_neg hcond] at h; simp at h
        · rw [if_neg hca] at h
          by_cases hcb : action = "cancel"
          · rw [if_pos hcb] at h
            cases hnum : jsNumber (jfield data "contribution_id") with
            | none => rw [hnum] at h; simp at h
            | some q =>
              rw [hnum] at h
              dsimp only at h
              cases hfi : mcs.find? (fun c2 => decide ((c2.id : ℚ) = q)) with
              | none => rw [hfi] at h; simp at h
              | some c => rw [hfi] at h; simp at h
          · rw [if_neg hcb] at h; simp at h
      | null => simp at h
      | bool b => simp at h
      | num n => simp at h
      | arr l => simp at h
      | obj l => simp at h
  · intro items mcs data p h
    unfold validateProposals at h
    cases hact : jfield data "action" with
    | none => rw [hact] at h; simp at h
    | some v =>
      rw [hact] at h
      cases v with
      | str action =>
        dsimp only at h
        by_cases hca : action = "contribute"
        · rw [if_pos hca] at h
          cases hnum : jsNumber (jfield data "item_id") with
          | none => rw [hnum] at h; simp at h
          | some q =>
            rw [hnum] at h
            dsimp only at h
            cases hfi : items.find? (fun i => decide ((i.id : ℚ) = q)) with
            | none => rw [hfi] at h; simp at h
            | some item =>
              rw [hfi] at h
              dsimp only at h
              by_cases hcond : (jsTruthy (jfield data "name") &&
                  (match jsNumber (jfield data "amount") with
                   | some a => decide (0 < a)
                   | none => false) && decide (item.is_funded = 0)) = true
              · rw [if_pos hcond] at h; simp at h
              · rw [if_neg hcond] at h; simp at h
        · rw [if_neg hca] at h
          by_cases hcb : action = "cancel"
          · rw [if_pos hcb] at h
            cases hnum : jsNumber (jfield data "contribution_id") with
            | none => rw [hnum] at h; simp at h
            | some q =>
              rw [hnum] at h
              dsimp only at h
              cases hfi : mcs.find? (fun c2 => decide ((c2.id : ℚ) = q)) with
              | none => rw [hfi] at h; simp at h
              | some c =>
                rw [hfi] at h
                dsimp only at h
                refine ⟨by rw [hcb], q, c, rfl, hfi,
                  List.mem_of_find?_eq_some hfi,
                  by simpa using List.find?_some hfi, ?_⟩
                simpa using h.symm
          · rw [if_neg hcb] at h; simp at h
      | null => simp at h
      | bool b => simp at h
      | num n => simp at h
      | arr l => simp at h
      | obj l => simp at h
  · intro items mcs message airesp eresp hmsg
    simp only [handleChat, not_true, if_false, if_neg hmsg]

def exDataC5 : Json :=
  .obj [("action", .str "contribute"), ("item_id", .num 1), ("name", .str "Ana"),
        ("amount", .num 5), ("message", .str "")]

/-- Witness for C5: a concrete extractor object naming the open item 1 with a
name and positive amount is surfaced as a pending contribution. -/
theorem chatProposal_validated_or_dropped_witness :
    (validateProposals [item1] [] exDataC5).1 = some ⟨1, "Bercinho", "Ana", 5, ""⟩ ∧
    jfield exDataC5 "action" = some (.str "contribute") := by
  refine ⟨by decide, ?_⟩
  exact (chatProposal_validated_or_dropped.1 [item1] [] exDataC5
    ⟨1, "Bercinho", "Ana", 5, ""⟩ (by decide)).1

end Babyshower
